import Mathlib

/-!
Shallow embedding of the op-dbus-p1 credential core:
`src/scripts/antigravity-replay-client.py` (CapturedSession, AntigravityReplayClient)
and `src/scripts/antigravity-token-extractor.py` (normalize_token,
find_existing_token, watch_for_tokens, extract_token_from_path).

Python dicts are modelled as insertion-ordered association lists
(`List (String × String)`), with `updateEntry` for `d[k] = v` and
`lookupHeader` for `d[k]` / `d.get(k)`.  Wall-clock times are `Int`.
Filesystems are functions from path strings to optional file records.
-/

namespace OpDbus

/-- Python `d[k] = v` on an insertion-ordered dict rendered as an
association list: overwrite in place if the key exists, else append. -/
def updateEntry (k v : String) : List (String × String) → List (String × String)
  | [] => [(k, v)]
  | (k', v') :: rest => if k' = k then (k, v) :: rest else (k', v') :: updateEntry k v rest

/-- Python `d.get(k)` on an association list (keys are unique in a dict,
so the first hit is the value). -/
def lookupHeader (k : String) : List (String × String) → Option String
  | [] => none
  | (k', v) :: rest => if k' = k then some v else lookupHeader k rest

/-- Python `d.update(other)`: fold `updateEntry` over `other`'s items. -/
def dictUpdate (d other : List (String × String)) : List (String × String) :=
  other.foldl (fun hs kv => updateEntry kv.1 kv.2 hs) d

/-- One entry of the session file's `tokens` array.  `none` models an
absent JSON key (the code reads fields with `.get`). -/
structure TokenEntry where
  access_token : Option String
  captured_at : Option String
  deriving DecidableEq, Repr

/-- The parsed JSON of a session file: `tokens`, `headers`, `endpoints`
may each be absent (`data.get(..., default)` in the code).  Endpoint
records are informational JSON objects, modelled as association lists. -/
structure SessionData where
  tokens : Option (List TokenEntry)
  headers : Option (List (String × String))
  endpoints : Option (List (List (String × String)))
  deriving DecidableEq, Repr

/-- `CapturedSession` from antigravity-replay-client.py. -/
structure CapturedSession where
  access_token : String
  headers : List (String × String)
  endpoints : List (List (String × String))
  captured_at : Option String
  deriving DecidableEq, Repr

/-- The exceptions `CapturedSession.from_files` can raise: the spec's
SessionLoadError taxonomy.  `fileNotFound` is the `FileNotFoundError`,
`noTokens` the `ValueError("No tokens found in session file")`. -/
inductive SessionLoadError where
  | fileNotFound
  | noTokens
  deriving DecidableEq, Repr

/-- `CapturedSession.from_files`: `fileExists` is `session_file.exists()`,
`data` the parsed session JSON, `headersFile` the parsed dedicated
headers file when it exists (`DEFAULT_HEADERS_FILE`), `none` otherwise.
The code takes `tokens = data.get("tokens", [])`, raises if empty, then
`latest_token = tokens[-1]` and `access_token = latest_token.get("access_token", "")`;
captured headers are `data.get("headers", {})` updated with the headers
file's entries. -/
def from_files (fileExists : Bool) (data : SessionData)
    (headersFile : Option (List (String × String))) :
    Except SessionLoadError CapturedSession :=
  if !fileExists then .error .fileNotFound
  else
    let tokens := data.tokens.getD []
    match tokens.getLast? with
    | none => .error .noTokens
    | some latest =>
      let headers0 := data.headers.getD []
      let headers :=
        match headersFile with
        | some fh => dictUpdate headers0 fh
        | none => headers0
      .ok { access_token := latest.access_token.getD ""
            headers := headers
            endpoints := data.endpoints.getD []
            captured_at := latest.captured_at }

/-- Python `key.lower()` (ASCII case folding, which is all header names
use): lowercase every character.  Same behaviour as `String.toLower`,
stated over the character list so the kernel can evaluate it. -/
def strLower (s : String) : String := ⟨s.data.map Char.toLower⟩

/-- The loop body of `get_request_headers`: skip any captured header
whose key lowercases to "authorization", otherwise `headers[key] = value`. -/
def addCaptured (hs : List (String × String)) (kv : String × String) :
    List (String × String) :=
  if strLower kv.1 = "authorization" then hs else updateEntry kv.1 kv.2 hs

/-- `CapturedSession.get_request_headers`, as a function of the session's
access token and captured headers: start from the synthesized
Authorization and Content-Type entries, then add every captured header
except case-insensitive "authorization". -/
def get_request_headers (access_token : String)
    (captured : List (String × String)) : List (String × String) :=
  captured.foldl addCaptured
    [("Authorization", "Bearer " ++ access_token),
     ("Content-Type", "application/json")]

/-! ### Chat response handling (AntigravityReplayClient.chat) -/

/-- One element of a candidate's `content.parts`; only the `text` key
matters to `chat` (parts without it are skipped). -/
structure GPart where
  text : Option String
  deriving DecidableEq, Repr

/-- A candidate's `content` object. -/
structure GContent where
  parts : List GPart
  deriving DecidableEq, Repr

/-- One element of the response's `candidates` array; `content` may be
absent (`candidates[0].get("content", {})`). -/
structure GCandidate where
  content : Option GContent
  deriving DecidableEq, Repr

/-- The parsed JSON of a successful generateContent response.
`candidates` and `usageMetadata` may be absent (the code reads both with
`.get`).  Usage metadata is an opaque JSON object passed through without
interpretation, modelled as an association list. -/
structure GenResponse where
  candidates : Option (List GCandidate)
  usageMetadata : Option (List (String × String))
  deriving DecidableEq, Repr

/-- The `RuntimeError`s `chat` can raise: the spec's UpstreamError
(`RuntimeError(f"API error {status}: {body}")` on a non-200 status,
carrying the status and raw body) and EmptyResponseError
(`RuntimeError("No response candidates")` on success with no candidate). -/
inductive ChatError where
  | upstream (status : Nat) (body : String)
  | emptyResponse
  deriving DecidableEq, Repr

/-- The message string of the raised `RuntimeError`, exactly as the
Python format strings build it. -/
def ChatError.message : ChatError → String
  | .upstream status body => "API error " ++ toString status ++ ": " ++ body
  | .emptyResponse => "No response candidates"

/-- The dict `chat` returns: `{"text": ..., "model": ..., "usage": ...}`. -/
structure ChatResult where
  text : String
  model : String
  usage : List (String × String)
  deriving DecidableEq, Repr

/-- The response-handling tail of `AntigravityReplayClient.chat`, as a
function of the backend's reply: the HTTP status, the raw body text
(read only on a non-200 status) and the parsed JSON body (read only on
status 200).  On non-200 it raises `RuntimeError(f"API error {status}: {error_text}")`;
on 200 with no candidates it raises `RuntimeError("No response candidates")`;
otherwise it joins the `text` field of every part of the first
candidate's content and returns it with the model name and the
`usageMetadata` passthrough. -/
def chatHandleResponse (model : String) (status : Nat) (bodyText : String)
    (bodyJson : GenResponse) : Except ChatError ChatResult :=
  if status ≠ 200 then .error (.upstream status bodyText)
  else
    match bodyJson.candidates.getD [] with
    | [] => .error .emptyResponse
    | first :: _ =>
      let text_parts := ((first.content.getD ⟨[]⟩).parts).filterMap GPart.text
      .ok { text := String.join text_parts
            model := model
            usage := bodyJson.usageMetadata.getD [] }

/-! ### Token extractor (antigravity-token-extractor.py) -/

/-- A raw credential JSON object as `normalize_token`, the locator and
the watcher read it: every field optional (`none` = key absent).
`expires_in` and `expires_at` are numeric timestamps/durations,
`expiry` an ISO-8601 string. -/
structure RawToken where
  access_token : Option String
  refresh_token : Option String
  token_type : Option String
  scope : Option String
  client_id : Option String
  client_secret : Option String
  quota_project_id : Option String
  expires_in : Option Int
  expires_at : Option Int
  expiry : Option String
  deriving DecidableEq, Repr

/-- The canonical token dict `normalize_token` builds.  The six
always-present keys are total fields; passthrough fields are present
exactly when present in the raw object. -/
structure CanonToken where
  access_token : String
  refresh_token : String
  token_type : String
  scope : String
  saved_at : Int
  source : String
  client_id : Option String
  client_secret : Option String
  quota_project_id : Option String
  expires_in : Option Int
  expires_at : Option Int
  deriving DecidableEq, Repr

/-- `normalize_token(data, source)`.  `parseIso` models the Python
stdlib call `datetime.fromisoformat(...).timestamp()` (an external
collaborator), returning `none` when `fromisoformat` raises — the code
swallows that failure and leaves `expires_at` unset.  `now` models
`time.time()`.  Field resolution follows the code: defaults for the
four string fields, passthrough copies, then the strict
expires_at / expires_in / expiry priority chain. -/
def normalize_token (parseIso : String → Option Int) (now : Int)
    (data : RawToken) (source : String) : CanonToken :=
  { access_token := data.access_token.getD ""
    refresh_token := data.refresh_token.getD ""
    token_type := data.token_type.getD "Bearer"
    scope := data.scope.getD ""
    saved_at := now
    source := source
    client_id := data.client_id
    client_secret := data.client_secret
    quota_project_id := data.quota_project_id
    expires_in := data.expires_in
    expires_at :=
      match data.expires_at with
      | some v => some v
      | none =>
        match data.expires_in with
        | some n => some (now + n)
        | none =>
          match data.expiry with
          | some s => parseIso (s.replace "Z" "+00:00")
          | none => none }

/-- `TOKEN_PATHS`: the fixed, ordered candidate list, as home-relative
path strings. -/
def TOKEN_PATHS : List String :=
  [".gemini/oauth_token.json",
   ".gemini/credentials.json",
   ".config/gemini/credentials.json",
   ".config/gemini-cli/credentials.json",
   ".config/google-gemini/oauth.json",
   ".cache/gemini/auth.json",
   ".local/share/gemini/token.json",
   ".config/google-generativeai/credentials.json",
   ".config/gcloud/application_default_credentials.json",
   ".config/firebase/tokens.json"]

/-- A file on disk as the extractor sees it: its mtime and its content,
`none` when the content does not parse as a JSON object
(`json.JSONDecodeError` / `IOError`). -/
structure FileData where
  mtime : Int
  content : Option RawToken
  deriving DecidableEq, Repr

/-- A filesystem snapshot: `none` = path does not exist. -/
def FSnap := String → Option FileData

/-- `'access_token' in data or 'refresh_token' in data`. -/
def hasTokenKey (data : RawToken) : Bool :=
  data.access_token.isSome || data.refresh_token.isSome

/-- The loop of `find_existing_token` over a remaining path list: first
existing path whose content parses and has a token key wins; parse
failures and key-less files are silently skipped. -/
def findExistingIn (fs : FSnap) : List String → Option String
  | [] => none
  | p :: rest =>
    match fs p with
    | none => findExistingIn fs rest
    | some f =>
      match f.content with
      | none => findExistingIn fs rest
      | some d => if hasTokenKey d then some p else findExistingIn fs rest

/-- `find_existing_token()`: scan `TOKEN_PATHS` in order. -/
def find_existing_token (fs : FSnap) : Option String :=
  findExistingIn fs TOKEN_PATHS

/-- Whether a path, in `fs`, holds a valid credential file in the
locator's sense. -/
def isValidTokenFile (fs : FSnap) (p : String) : Bool :=
  match fs p with
  | none => false
  | some f => (f.content.map hasTokenKey).getD false

/-- `extract_token_from_path(path)`: re-open, parse, normalize and save;
returns False when anything raises (here: file missing or unparseable),
True otherwise (`normalize_token` is total and `save_token` is modelled
as succeeding). -/
def extract_token_from_path (fs : FSnap) (p : String) : Bool :=
  match fs p with
  | none => false
  | some f => f.content.isSome

/-- `path not in initial_mtimes or current_mtime > initial_mtimes.get(path, 0)`. -/
def newOrModified (baseline : String → Option Int) (p : String) (m : Int) : Bool :=
  match baseline p with
  | none => true
  | some b => b < m

/-- The watcher's qualification test for one path in one snapshot: the
path exists, is new or modified w.r.t. the baseline, and its content
parses with a token key. -/
def qualifies (baseline : String → Option Int) (fs : FSnap) (p : String) : Bool :=
  match fs p with
  | none => false
  | some f =>
    newOrModified baseline p f.mtime && (f.content.map hasTokenKey).getD false

/-- One pass of the watcher's inner `for path in TOKEN_PATHS` loop:
`some r` when the loop returned `r = extract_token_from_path(path)` on a
qualifying path, `none` when it fell through to the sleep. -/
def scanOnce (baseline : String → Option Int) (fs : FSnap) :
    List String → Option Bool
  | [] => none
  | p :: rest =>
    match fs p with
    | none => scanOnce baseline fs rest
    | some f =>
      if newOrModified baseline p f.mtime then
        match f.content with
        | none => scanOnce baseline fs rest
        | some d =>
          if hasTokenKey d then some (extract_token_from_path fs p)
          else scanOnce baseline fs rest
      else scanOnce baseline fs rest

/-- `initial_mtimes`: mtime of every candidate path existing at watch
start. -/
def mkBaseline (fs : FSnap) (p : String) : Option Int :=
  (fs p).map FileData.mtime

/-- The watcher's `while time.time() - start_time < timeout_secs` loop,
discretized at the 1-second poll interval: `rem` iterations remain,
`fhist t` is the filesystem at poll `t`. -/
def watchLoop (baseline : String → Option Int) (fhist : Nat → FSnap) :
    Nat → Nat → Bool
  | _, 0 => false
  | t, rem + 1 =>
    match scanOnce baseline (fhist t) TOKEN_PATHS with
    | some r => r
    | none => watchLoop baseline fhist (t + 1) rem

/-- `watch_for_tokens(timeout_secs)`: capture the baseline from the
filesystem at time 0, then poll snapshots 1..timeout. -/
def watch_for_tokens (timeout_secs : Nat) (fhist : Nat → FSnap) : Bool :=
  watchLoop (mkBaseline (fhist 0)) fhist 1 timeout_secs

/-! ### Concrete inputs used by witnesses -/

/-- A raw credential object with only an access_token. -/
def rawWithAccess : RawToken :=
  { access_token := some "tok-a", refresh_token := none, token_type := none,
    scope := none, client_id := none, client_secret := none,
    quota_project_id := none, expires_in := none, expires_at := none,
    expiry := none }

/-- A raw credential object with every key absent. -/
def rawEmpty : RawToken :=
  { access_token := none, refresh_token := none, token_type := none,
    scope := none, client_id := none, client_secret := none,
    quota_project_id := none, expires_in := none, expires_at := none,
    expiry := none }

/-- A raw credential object carrying all three expiry representations. -/
def rawAllExpiry : RawToken :=
  { access_token := some "tok-a", refresh_token := none, token_type := none,
    scope := none, client_id := none, client_secret := none,
    quota_project_id := none, expires_in := some 3600,
    expires_at := some 111, expiry := some "2024-01-01T00:00:00Z" }

/-- A snapshot where the first two candidate paths both hold valid
credential files and the second has the strictly newer mtime. -/
def fsTwoValid : FSnap := fun p =>
  if p = ".gemini/oauth_token.json" then some ⟨5, some rawWithAccess⟩
  else if p = ".gemini/credentials.json" then some ⟨99, some rawWithAccess⟩
  else none

/-- A snapshot where only the firebase candidate path holds a valid
credential file. -/
def fsOneValid : FSnap := fun p =>
  if p = ".config/firebase/tokens.json" then some ⟨7, some rawWithAccess⟩
  else none

/-- The empty filesystem snapshot. -/
def fsEmpty : FSnap := fun _ => none

/-- The per-path content view of a snapshot: existence and parsed
content, without the mtime. -/
def contentView (fs : FSnap) (p : String) : Option (Option RawToken) :=
  (fs p).map FileData.content

/-- A successful generation response whose first candidate holds two
text parts around one text-less part, plus usage metadata. -/
def genRespHello : GenResponse :=
  { candidates := some [⟨some ⟨[⟨some "Hello, "⟩, ⟨none⟩, ⟨some "world!"⟩]⟩⟩]
    usageMetadata := some [("totalTokenCount", "5")] }

/-! ### Helper lemmas -/

theorem lookupHeader_updateEntry_ne (k v k' : String)
    (l : List (String × String)) (h : k' ≠ k) :
    lookupHeader k' (updateEntry k v l) = lookupHeader k' l := by
  induction l with
  | nil =>
    simp only [updateEntry, lookupHeader]
    rw [if_neg fun hh => h hh.symm]
  | cons hd tl ih =>
    obtain ⟨a, b⟩ := hd
    by_cases hak : a = k
    · subst hak
      simp only [updateEntry, if_pos rfl, lookupHeader]
      rw [if_neg fun hh => h hh.symm, if_neg fun hh => h hh.symm]
    · simp only [updateEntry, if_neg hak, lookupHeader]
      by_cases hak' : a = k'
      · rw [if_pos hak', if_pos hak']
      · rw [if_neg hak', if_neg hak', ih]

theorem mem_updateEntry (k v : String) (l : List (String × String))
    (p : String × String) (hp : p ∈ updateEntry k v l) :
    p = (k, v) ∨ p ∈ l := by
  induction l with
  | nil =>
    simp only [updateEntry, List.mem_singleton] at hp
    exact Or.inl hp
  | cons hd tl ih =>
    obtain ⟨a, b⟩ := hd
    simp only [updateEntry] at hp
    by_cases hak : a = k
    · rw [if_pos hak] at hp
      rcases List.mem_cons.mp hp with h1 | h2
      · exact Or.inl h1
      · exact Or.inr (List.mem_cons_of_mem _ h2)
    · rw [if_neg hak] at hp
      rcases List.mem_cons.mp hp with h1 | h2
      · exact Or.inr (h1 ▸ List.mem_cons_self _ _)
      · rcases ih h2 with h3 | h4
        · exact Or.inl h3
        · exact Or.inr (List.mem_cons_of_mem _ h4)

theorem authorization_lower :
    strLower "Authorization" = "authorization" := by decide

theorem grh_auth_aux (tok : String) (l : List (String × String)) :
    ∀ init, lookupHeader "Authorization" init = some ("Bearer " ++ tok) →
      lookupHeader "Authorization" (l.foldl addCaptured init) =
        some ("Bearer " ++ tok) := by
  induction l with
  | nil => exact fun init h => h
  | cons hd tl ih =>
    intro init h
    rw [List.foldl_cons]
    apply ih
    unfold addCaptured
    by_cases hskip : strLower hd.1 = "authorization"
    · rw [if_pos hskip]; exact h
    · have hne : ("Authorization" : String) ≠ hd.1 := by
        intro heq
        rw [← heq] at hskip
        exact hskip authorization_lower
      rw [if_neg hskip, lookupHeader_updateEntry_ne _ _ _ _ hne]
      exact h

theorem grh_ct_aux (l : List (String × String))
    (hl : ∀ p ∈ l, p.1 ≠ "Content-Type") :
    ∀ init, lookupHeader "Content-Type" (l.foldl addCaptured init) =
      lookupHeader "Content-Type" init := by
  induction l with
  | nil => exact fun init => rfl
  | cons hd tl ih =>
    intro init
    rw [List.foldl_cons,
      ih fun p hp => hl p (List.mem_cons_of_mem _ hp)]
    unfold addCaptured
    by_cases hskip : strLower hd.1 = "authorization"
    · rw [if_pos hskip]
    · have hne : ("Content-Type" : String) ≠ hd.1 :=
        fun heq => hl hd (List.mem_cons_self _ _) heq.symm
      rw [if_neg hskip, lookupHeader_updateEntry_ne _ _ _ _ hne]

theorem grh_mem_aux (tok : String) (l : List (String × String)) :
    ∀ init,
      (∀ p ∈ init, strLower p.1 = "authorization" →
        p = ("Authorization", "Bearer " ++ tok)) →
      ∀ p ∈ l.foldl addCaptured init, strLower p.1 = "authorization" →
        p = ("Authorization", "Bearer " ++ tok) := by
  induction l with
  | nil => exact fun init h => h
  | cons hd tl ih =>
    intro init hinit
    rw [List.foldl_cons]
    apply ih
    intro p hp hlow
    unfold addCaptured at hp
    by_cases hskip : strLower hd.1 = "authorization"
    · rw [if_pos hskip] at hp
      exact hinit p hp hlow
    · rw [if_neg hskip] at hp
      rcases mem_updateEntry _ _ _ _ hp with h1 | h2
      · subst h1
        exact absurd hlow hskip
      · exact hinit p h2 hlow

/-! ### Claim theorems -/

/-- Claim C1, counterexample: the claim says `get_request_headers()`
always contains `"Content-Type": "application/json"`, but a captured
header with the exact key "Content-Type" overwrites it — with captured
headers `{"Content-Type": "text/plain"}` the result maps Content-Type
to "text/plain", not "application/json". -/
theorem c1_content_type_counterexample :
    lookupHeader "Content-Type"
      (get_request_headers "tok" [("Content-Type", "text/plain")]) ≠
      some "application/json" ∧
    lookupHeader "Content-Type"
      (get_request_headers "tok" [("Content-Type", "text/plain")]) =
      some "text/plain" := by
  exact ⟨by decide, by decide⟩

/-- Claim C1 (amended): for every session token and captured headers
mapping, `get_request_headers()` maps "Authorization" to exactly
`"Bearer " ++ token`; it maps "Content-Type" to "application/json"
whenever the captured headers contain no entry with the exact key
"Content-Type" (a captured Content-Type entry overrides the default);
and every entry whose key case-insensitively equals "authorization" is
the synthesized bearer entry itself — no "authorization" entry from the
captured headers survives. -/
theorem c1_request_headers_amended (tok : String)
    (captured : List (String × String)) :
    lookupHeader "Authorization" (get_request_headers tok captured) =
      some ("Bearer " ++ tok) ∧
    ((∀ p ∈ captured, p.1 ≠ "Content-Type") →
      lookupHeader "Content-Type" (get_request_headers tok captured) =
        some "application/json") ∧
    (∀ p ∈ get_request_headers tok captured,
      strLower p.1 = "authorization" →
        p = ("Authorization", "Bearer " ++ tok)) := by
  refine ⟨?_, ?_, ?_⟩
  · unfold get_request_headers
    apply grh_auth_aux
    rfl
  · intro hct
    unfold get_request_headers
    rw [grh_ct_aux captured hct]
    rfl
  · unfold get_request_headers
    apply grh_mem_aux
    intro p hp hlow
    rcases List.mem_cons.mp hp with h1 | h2
    · exact h1
    · rcases List.mem_cons.mp h2 with h3 | h4
      · subst h3
        exact absurd hlow (by decide)
      · cases h4

/-- Claim C1, witness: at token "tok" and captured headers
`{"X-Goog-Api-Key": "k"}`, the amended theorem yields the bearer
Authorization entry and the default Content-Type entry. -/
theorem c1_request_headers_witness :
    lookupHeader "Authorization"
      (get_request_headers "tok" [("X-Goog-Api-Key", "k")]) =
      some ("Bearer " ++ "tok") ∧
    lookupHeader "Content-Type"
      (get_request_headers "tok" [("X-Goog-Api-Key", "k")]) =
      some "application/json" := by
  have h := c1_request_headers_amended "tok" [("X-Goog-Api-Key", "k")]
  exact ⟨h.1, h.2.1 (by decide)⟩

/-- Claim C2, counterexample: the claim says a CapturedSession with an
unresolvable access_token is never constructed, but when the latest
tokens entry has no `access_token` key, `from_files` succeeds and
constructs a session whose access_token is the empty string. -/
theorem c2_empty_token_counterexample :
    from_files true
      { tokens := some [{ access_token := none, captured_at := none }],
        headers := none, endpoints := none } none =
      .ok { access_token := "", headers := [], endpoints := [],
            captured_at := none } := by
  rfl

/-- Claim C2 (amended): loading fails closed only when the session file
is missing or its tokens history is empty/absent; when the history is
non-empty, a session is always constructed, with access_token defaulted
from the latest entry — the empty string when that entry lacks the key.
So a session with an empty access_token can be constructed. -/
theorem c2_load_amended (data : SessionData)
    (hf : Option (List (String × String))) (l : List TokenEntry)
    (e : TokenEntry) (htok : data.tokens = some l)
    (hlast : l.getLast? = some e) :
    ∃ s, from_files true data hf = .ok s ∧
      s.access_token = e.access_token.getD "" := by
  simp only [from_files, Bool.not_true, Bool.false_eq_true, if_false, htok,
    Option.getD_some, hlast]
  exact ⟨_, rfl, rfl⟩

/-- Claim C2, witness: a session file whose single tokens entry lacks
access_token loads into a session with the empty-string token. -/
theorem c2_load_amended_witness :
    ∃ s, from_files true
      { tokens := some [{ access_token := none, captured_at := none }],
        headers := none, endpoints := none } none = .ok s ∧
      s.access_token = (none : Option String).getD "" := by
  exact c2_load_amended _ none [{ access_token := none, captured_at := none }]
    _ rfl rfl

/-- Claim C9: loading fails (with the FileNotFoundError / ValueError
that the spec's SessionLoadError names) when the session file does not
exist or the tokens history is empty or absent; with a non-empty
history the last entry of the tokens array is selected as the active
token, with no sorting. -/
theorem c9_session_load (data : SessionData)
    (hf : Option (List (String × String))) :
    (from_files false data hf = .error .fileNotFound) ∧
    (data.tokens.getD [] = [] → from_files true data hf = .error .noTokens) ∧
    (∀ l e, data.tokens = some l → l.getLast? = some e →
      ∃ s, from_files true data hf = .ok s ∧
        s.access_token = e.access_token.getD "" ∧
        s.captured_at = e.captured_at) := by
  refine ⟨rfl, ?_, ?_⟩
  · intro h
    simp only [from_files, Bool.not_true, Bool.false_eq_true, if_false, h]
    rfl
  · intro l e htok hlast
    simp only [from_files, Bool.not_true, Bool.false_eq_true, if_false, htok,
      Option.getD_some, hlast]
    exact ⟨_, rfl, rfl, rfl⟩

/-- Claim C9, witness: a session file with an absent tokens array fails
with the no-tokens error, and one whose last entry carries a token
loads it. -/
theorem c9_session_load_witness :
    from_files true { tokens := none, headers := none, endpoints := none }
      none = .error .noTokens ∧
    ∃ s, from_files true
      { tokens := some [{ access_token := some "old", captured_at := none },
                        { access_token := some "new", captured_at := some "t1" }],
        headers := none, endpoints := none } none = .ok s ∧
      s.access_token = (some "new").getD "" ∧
      s.captured_at = some "t1" := by
  constructor
  · exact (c9_session_load ⟨none, none, none⟩ none).2.1 rfl
  · exact (c9_session_load _ none).2.2 _ ⟨some "new", some "t1"⟩ rfl rfl

/-- Claim C3: `normalize_token` resolves expires_at by strict priority —
a present `expires_at` is copied verbatim (ignoring `expires_in` and
`expiry`); otherwise a present `expires_in` yields `now + expires_in`;
otherwise a present `expiry` string yields whatever the ISO-8601 parse
gives, which is omitted (`none`) on parse failure, with no error raised
(`normalize_token` is total). -/
theorem c3_expiry_priority (parseIso : String → Option Int) (now : Int)
    (data : RawToken) (source : String) :
    (∀ v, data.expires_at = some v →
      (normalize_token parseIso now data source).expires_at = some v) ∧
    (data.expires_at = none → ∀ n, data.expires_in = some n →
      (normalize_token parseIso now data source).expires_at =
        some (now + n)) ∧
    (data.expires_at = none → data.expires_in = none →
      ∀ s, data.expiry = some s →
        (normalize_token parseIso now data source).expires_at =
          parseIso (s.replace "Z" "+00:00")) := by
  refine ⟨?_, ?_, ?_⟩
  · intro v hv
    simp [normalize_token, hv]
  · intro h0 n hn
    simp [normalize_token, h0, hn]
  · intro h0 h1 s hs
    simp [normalize_token, h0, h1, hs]

/-- Claim C3, witness: with all three of expires_at, expires_in and
expiry present, expires_at is copied verbatim and the other two are
ignored. -/
theorem c3_expiry_priority_witness :
    rawAllExpiry.expires_at = some 111 ∧
    (normalize_token (fun _ => none) 1000 rawAllExpiry "src").expires_at =
      some 111 := by
  exact ⟨rfl, (c3_expiry_priority (fun _ => none) 1000 rawAllExpiry "src").1
    111 rfl⟩

/-- Claim C10: `normalize_token` is total and always yields the six
canonical keys, defaulting access_token, refresh_token and scope to ""
and token_type to "Bearer" when absent; in particular the empty raw
mapping normalizes (rather than being rejected) to the all-default
record. -/
theorem c10_normalize_defaults (parseIso : String → Option Int) (now : Int)
    (data : RawToken) (source : String) :
    (normalize_token parseIso now data source).saved_at = now ∧
    (normalize_token parseIso now data source).source = source ∧
    (data.access_token = none →
      (normalize_token parseIso now data source).access_token = "") ∧
    (data.refresh_token = none →
      (normalize_token parseIso now data source).refresh_token = "") ∧
    (data.token_type = none →
      (normalize_token parseIso now data source).token_type = "Bearer") ∧
    (data.scope = none →
      (normalize_token parseIso now data source).scope = "") ∧
    normalize_token parseIso now rawEmpty source =
      { access_token := ""
        refresh_token := ""
        token_type := "Bearer"
        scope := ""
        saved_at := now
        source := source
        client_id := none
        client_secret := none
        quota_project_id := none
        expires_in := none
        expires_at := none } := by
  refine ⟨rfl, rfl, ?_, ?_, ?_, ?_, rfl⟩ <;>
    (intro h; simp [normalize_token, h])

/-- Claim C10, witness: the empty raw mapping at time 7 and source "s"
normalizes to the all-default canonical record. -/
theorem c10_normalize_defaults_witness :
    (normalize_token (fun _ => none) 7 rawEmpty "s").access_token = "" ∧
    (normalize_token (fun _ => none) 7 rawEmpty "s").token_type =
      "Bearer" := by
  have h := c10_normalize_defaults (fun _ => none) 7 rawEmpty "s"
  exact ⟨h.2.2.1 rfl, h.2.2.2.2.1 rfl⟩

/-- Claim C5: the locator's scan returns the first path in list order
that holds a valid credential file (exists, parses, and has
access_token or refresh_token); any path that fails that test is
silently skipped with no error; and the result depends only on the
files' contents, never on modification times — so with two valid
candidates the first in list order wins even when the second is
strictly newer. -/
theorem c5_locator_order (fs : FSnap) :
    (∀ p rest, isValidTokenFile fs p = true →
      findExistingIn fs (p :: rest) = some p) ∧
    (∀ p rest, isValidTokenFile fs p = false →
      findExistingIn fs (p :: rest) = findExistingIn fs rest) ∧
    (∀ fs' : FSnap, (∀ q, contentView fs q = contentView fs' q) →
      ∀ ps, findExistingIn fs ps = findExistingIn fs' ps) := by
  refine ⟨?_, ?_, ?_⟩
  · intro p rest h
    cases hfp : fs p with
    | none => simp [isValidTokenFile, hfp] at h
    | some f =>
      cases hc : f.content with
      | none => simp [isValidTokenFile, hfp, hc] at h
      | some d =>
        have hk : hasTokenKey d = true := by
          simpa [isValidTokenFile, hfp, hc] using h
        simp [findExistingIn, hfp, hc, hk]
  · intro p rest h
    cases hfp : fs p with
    | none => simp [findExistingIn, hfp]
    | some f =>
      cases hc : f.content with
      | none => simp [findExistingIn, hfp, hc]
      | some d =>
        have hk : hasTokenKey d = false := by
          simpa [isValidTokenFile, hfp, hc] using h
        simp [findExistingIn, hfp, hc, hk]
  · intro fs' hagree ps
    induction ps with
    | nil => rfl
    | cons p rest ih =>
      have hq := hagree p
      unfold contentView at hq
      cases hfp : fs p with
      | none =>
        cases hfp' : fs' p with
        | none => simp [findExistingIn, hfp, hfp', ih]
        | some f' =>
          rw [hfp, hfp'] at hq
          simp at hq
      | some f =>
        cases hfp' : fs' p with
        | none =>
          rw [hfp, hfp'] at hq
          simp at hq
        | some f' =>
          rw [hfp, hfp'] at hq
          simp only [Option.map_some', Option.some.injEq] at hq
          cases hc : f'.content with
          | none => simp [findExistingIn, hfp, hfp', hq, hc, ih]
          | some d =>
            by_cases hk : hasTokenKey d = true
            · simp [findExistingIn, hfp, hfp', hq, hc, hk]
            · simp only [Bool.not_eq_true] at hk
              simp [findExistingIn, hfp, hfp', hq, hc, hk, ih]

/-- Claim C5, witness: with the first two candidate paths both valid
and the second strictly newer (mtime 99 vs 5), the scan returns the
first. -/
theorem c5_locator_order_witness :
    (fsTwoValid ".gemini/oauth_token.json").map FileData.mtime = some 5 ∧
    (fsTwoValid ".gemini/credentials.json").map FileData.mtime = some 99 ∧
    findExistingIn fsTwoValid
      [".gemini/oauth_token.json", ".gemini/credentials.json"] =
      some ".gemini/oauth_token.json" := by
  refine ⟨rfl, rfl, ?_⟩
  exact (c5_locator_order fsTwoValid).1 ".gemini/oauth_token.json"
    [".gemini/credentials.json"] (by decide)

theorem scanOnce_some_eq_true (baseline : String → Option Int) (fs : FSnap) :
    ∀ ps r, scanOnce baseline fs ps = some r → r = true := by
  intro ps
  induction ps with
  | nil => intro r h; simp [scanOnce] at h
  | cons p rest ih =>
    intro r h
    cases hfp : fs p with
    | none =>
      rw [scanOnce, hfp] at h
      exact ih r h
    | some f =>
      by_cases hm : newOrModified baseline p f.mtime = true
      · cases hc : f.content with
        | none =>
          rw [scanOnce, hfp] at h
          simp only [hm, if_true, hc] at h
          exact ih r h
        | some d =>
          by_cases hk : hasTokenKey d = true
          · have hx : extract_token_from_path fs p = true := by
              simp [extract_token_from_path, hfp, hc]
            rw [scanOnce, hfp] at h
            simp only [hm, if_true, hc, hk, if_true, hx,
              Option.some.injEq] at h
            exact h.symm
          · simp only [Bool.not_eq_true] at hk
            rw [scanOnce, hfp] at h
            simp only [hm, if_true, hc, hk, Bool.false_eq_true,
              if_false] at h
            exact ih r h
      · simp only [Bool.not_eq_true] at hm
        rw [scanOnce, hfp] at h
        simp only [hm, Bool.false_eq_true, if_false] at h
        exact ih r h

theorem scanOnce_none_iff (baseline : String → Option Int) (fs : FSnap) :
    ∀ ps, scanOnce baseline fs ps = none ↔
      ∀ p ∈ ps, qualifies baseline fs p = false := by
  intro ps
  induction ps with
  | nil => simp [scanOnce]
  | cons p rest ih =>
    cases hfp : fs p with
    | none =>
      simp [scanOnce, qualifies, hfp, List.forall_mem_cons, ih]
    | some f =>
      by_cases hm : newOrModified baseline p f.mtime = true
      · cases hc : f.content with
        | none =>
          simp [scanOnce, qualifies, hfp, hm, hc, List.forall_mem_cons, ih]
        | some d =>
          by_cases hk : hasTokenKey d = true
          · simp [scanOnce, qualifies, hfp, hm, hc, hk,
              List.forall_mem_cons]
          · simp only [Bool.not_eq_true] at hk
            simp [scanOnce, qualifies, hfp, hm, hc, hk,
              List.forall_mem_cons, ih]
      · simp only [Bool.not_eq_true] at hm
        simp [scanOnce, qualifies, hfp, hm, List.forall_mem_cons, ih]

theorem watchLoop_false_iff (baseline : String → Option Int)
    (fhist : Nat → FSnap) :
    ∀ rem t, watchLoop baseline fhist t rem = false ↔
      ∀ i, i < rem → ∀ p ∈ TOKEN_PATHS,
        qualifies baseline (fhist (t + i)) p = false := by
  intro rem
  induction rem with
  | zero => intro t; simp [watchLoop]
  | succ n ih =>
    intro t
    cases hs : scanOnce baseline (fhist t) TOKEN_PATHS with
    | some r =>
      have hr := scanOnce_some_eq_true baseline (fhist t) TOKEN_PATHS r hs
      subst hr
      simp only [watchLoop, hs, Bool.true_eq_false, false_iff]
      intro h
      have h0 := h 0 n.succ_pos
      simp only [Nat.add_zero] at h0
      have hnone := (scanOnce_none_iff baseline (fhist t) TOKEN_PATHS).mpr h0
      rw [hs] at hnone
      simp at hnone
    | none =>
      simp only [watchLoop, hs]
      rw [ih (t + 1)]
      constructor
      · intro h i hi p hp
        cases i with
        | zero =>
          simp only [Nat.add_zero]
          exact (scanOnce_none_iff baseline (fhist t) TOKEN_PATHS).mp hs p hp
        | succ j =>
          have hj : j < n := Nat.lt_of_succ_lt_succ hi
          have hq := h j hj p hp
          have harith : t + 1 + j = t + (j + 1) := by omega
          rwa [harith] at hq
      · intro h j hj p hp
        have hq := h (j + 1) (Nat.succ_lt_succ hj) p hp
        have harith : t + (j + 1) = t + 1 + j := by omega
        rwa [harith] at hq

/-- Claim C4: a path qualifies exactly when it exists and is absent
from the baseline or strictly newer than its baseline mtime, and its
content parses with a credential key (this is `qualifies`).  On the
first qualifying path the scan delegates to
`extract_token_from_path` and returns success immediately, never
examining the remaining paths; a non-qualifying path is skipped; and
`watch_for_tokens` returns failure exactly when no candidate path
qualifies at any poll before the full timeout elapses. -/
theorem c4_watcher (baseline : String → Option Int) (fs : FSnap)
    (p : String) (rest : List String) (timeout_secs : Nat)
    (fhist : Nat → FSnap) :
    (qualifies baseline fs p = true →
      scanOnce baseline fs (p :: rest) =
        some (extract_token_from_path fs p) ∧
      extract_token_from_path fs p = true) ∧
    (qualifies baseline fs p = false →
      scanOnce baseline fs (p :: rest) = scanOnce baseline fs rest) ∧
    (watch_for_tokens timeout_secs fhist = false ↔
      ∀ t, 1 ≤ t → t ≤ timeout_secs → ∀ q ∈ TOKEN_PATHS,
        qualifies (mkBaseline (fhist 0)) (fhist t) q = false) := by
  refine ⟨?_, ?_, ?_⟩
  · intro h
    cases hfp : fs p with
    | none => simp [qualifies, hfp] at h
    | some f =>
      cases hc : f.content with
      | none => simp [qualifies, hfp, hc] at h
      | some d =>
        simp only [qualifies, hfp, hc, Option.map_some', Option.getD_some,
          Bool.and_eq_true] at h
        constructor
        · simp [scanOnce, hfp, hc, h.1, h.2]
        · simp [extract_token_from_path, hfp, hc]
  · intro h
    cases hfp : fs p with
    | none => simp [scanOnce, hfp]
    | some f =>
      by_cases hm : newOrModified baseline p f.mtime = true
      · cases hc : f.content with
        | none => simp [scanOnce, hfp, hm, hc]
        | some d =>
          have hk : hasTokenKey d = false := by
            simp only [qualifies, hfp, hc, Option.map_some', Option.getD_some,
              hm, Bool.true_and] at h
            exact h
          simp [scanOnce, hfp, hm, hc, hk]
      · simp only [Bool.not_eq_true] at hm
        simp [scanOnce, hfp, hm]
  · unfold watch_for_tokens
    rw [watchLoop_false_iff (mkBaseline (fhist 0)) fhist timeout_secs 1]
    constructor
    · intro h t ht1 ht2 q hq
      have hq' := h (t - 1) (by omega) q hq
      have harith : 1 + (t - 1) = t := by omega
      rwa [harith] at hq'
    · intro h i hi q hq
      exact h (1 + i) (by omega) (by omega) q hq

/-- Claim C4, witness: against an initially empty baseline, a snapshot
where the firebase candidate path newly holds a parseable credential
file qualifies, so the scan returns success by extracting from it. -/
theorem c4_watcher_witness :
    scanOnce (mkBaseline fsEmpty) fsOneValid
      [".config/firebase/tokens.json"] =
      some (extract_token_from_path fsOneValid
        ".config/firebase/tokens.json") ∧
    extract_token_from_path fsOneValid ".config/firebase/tokens.json" =
      true := by
  exact (c4_watcher (mkBaseline fsEmpty) fsOneValid
    ".config/firebase/tokens.json" [] 0 (fun _ => fsEmpty)).1 (by decide)

/-- Claim C6: on a non-success (non-200) HTTP status, `chat` fails with
the upstream error, which carries the status code and the raw response
body, and whose message is `f"API error {status}: {body}"` — so the
raw body is always contained (as a suffix) in the message. -/
theorem c6_upstream_error (model : String) (status : Nat) (body : String)
    (bodyJson : GenResponse) (h : status ≠ 200) :
    chatHandleResponse model status body bodyJson =
      .error (.upstream status body) ∧
    (ChatError.upstream status body).message =
      "API error " ++ toString status ++ ": " ++ body ∧
    body.data <:+ ((ChatError.upstream status body).message).data := by
  refine ⟨?_, rfl, ?_⟩
  · simp [chatHandleResponse, h]
  · show body.data <:+ ("API error " ++ toString status ++ ": " ++ body).data
    rw [String.data_append]
    exact List.suffix_append _ _

/-- Claim C6, witness: a 403 reply with body "quota exceeded" fails
with the upstream error carrying status 403, and "quota exceeded" is
contained in its message. -/
theorem c6_upstream_error_witness :
    chatHandleResponse "gemini-2.0-flash" 403 "quota exceeded"
      ⟨none, none⟩ = .error (.upstream 403 "quota exceeded") ∧
    ("quota exceeded" : String).data <:+
      ((ChatError.upstream 403 "quota exceeded").message).data := by
  have h := c6_upstream_error "gemini-2.0-flash" 403 "quota exceeded"
    ⟨none, none⟩ (by decide)
  exact ⟨h.1, h.2.2⟩

/-- Claim C7: on a success (200) status whose candidates list is empty
or absent, `chat` fails with the empty-response error, a condition
distinct from every upstream error — both as a value and by its
message — so a caller can tell a backend refusal from a backend
success that returned nothing. -/
theorem c7_empty_candidates (model : String) (body : String)
    (bodyJson : GenResponse) (h : bodyJson.candidates.getD [] = []) :
    chatHandleResponse model 200 body bodyJson = .error .emptyResponse ∧
    (∀ s b, ChatError.emptyResponse ≠ ChatError.upstream s b) ∧
    (∀ s b, ChatError.emptyResponse.message ≠
      (ChatError.upstream s b).message) := by
  refine ⟨?_, ?_, ?_⟩
  · simp [chatHandleResponse, h]
  · intro s b hne
    cases hne
  · intro s b heq
    simp only [ChatError.message] at heq
    have h1 : ("No response candidates" : String).data.head? =
      some 'N' := rfl
    have h2 : ("API error " ++ toString s ++ ": " ++ b).data.head? =
      some 'A' := rfl
    rw [heq] at h1
    rw [h1] at h2
    simp at h2

/-- Claim C7, witness: a 200 reply whose candidates array is empty
fails with the empty-response error, and that error differs from the
403 upstream error. -/
theorem c7_empty_candidates_witness :
    chatHandleResponse "gemini-2.0-flash" 200 "" ⟨some [], none⟩ =
      .error .emptyResponse ∧
    ChatError.emptyResponse ≠ ChatError.upstream 403 "quota exceeded" := by
  have h := c7_empty_candidates "gemini-2.0-flash" "" ⟨some [], none⟩ rfl
  exact ⟨h.1, h.2.1 403 "quota exceeded"⟩

/-- Claim C8: on a success status with a non-empty candidates list,
`chat` returns the in-order concatenation of every text-bearing part of
the first candidate's content (parts with no text field are skipped),
together with the requested model name and the backend's usage
metadata passed through unchanged. -/
theorem c8_chat_text (model bodyText : String) (bodyJson : GenResponse)
    (c : GCandidate) (rest : List GCandidate)
    (h : bodyJson.candidates = some (c :: rest)) :
    chatHandleResponse model 200 bodyText bodyJson =
      .ok { text := String.join
              (((c.content.getD ⟨[]⟩).parts).filterMap GPart.text)
            model := model
            usage := bodyJson.usageMetadata.getD [] } := by
  simp [chatHandleResponse, h]

/-- Claim C8, witness: two text parts "Hello, " and "world!" (with a
text-less part between them) yield text "Hello, world!", the requested
model name, and the usage metadata unchanged. -/
theorem c8_chat_text_witness :
    chatHandleResponse "gemini-2.0-flash" 200 "" genRespHello =
      .ok { text := "Hello, world!"
            model := "gemini-2.0-flash"
            usage := [("totalTokenCount", "5")] } := by
  rw [c8_chat_text "gemini-2.0-flash" "" genRespHello _ [] rfl]
  rfl

end OpDbus
